import Mathlib

/-!
A Lean model of the BrassRadar listing-ingestion and watch-tracking
pipeline (`brassradar.py`, with the revised `notify_ended` of
`notify_ended_patch.py`), together with theorems about its behaviour.

Modelling conventions, chosen once and used throughout:

* Python `float` monetary values and numeric JSON fields are modelled as
  `ℚ`; Python truthiness of a number is `≠ 0`, of an optional value is
  `Option.isSome`, of a string is `≠ ""`.
* The three sqlite tables (`items`, `price_history`, `watchlist`) are
  modelled as Lean lists of records, one record type per table, with the
  same column names.  `INSERT ... ON CONFLICT(item_id) DO UPDATE` is a
  map-replace on the row with the conflicting key, `INSERT OR REPLACE` is
  filter-out-the-key-then-append, `ON CONFLICT DO NOTHING` keeps the list.
* External effects are explicit oracle parameters: `requests.get` for the
  item-detail endpoint is `outcome : String → Except String DetailResp`
  (`Except.error` models a raised timeout/transport exception,
  `Except.ok` a received HTTP response with its status code);
  `datetime.fromisoformat` is an abstract `parse : String → Option ℤ`
  (instants as integers); `datetime.now` / `utc_now()` are explicit
  instant/string parameters fixed for one pass; `download_image` is an
  oracle `String → Option String`.
* `notify_ended` is modelled as emission of the structured message the
  code builds (title, final price, final currency, web url); delivery is
  outside the model.
-/

namespace BrassRadar

/-- Lower-casing of a string, character by character (models Python
`str.lower()` on the ASCII keyword data this program uses). -/
def lowerStr (s : String) : String := ⟨s.data.map Char.toLower⟩

/-- Upper-casing of a string, character by character (models Python
`str.upper()`). -/
def upperStr (s : String) : String := ⟨s.data.map Char.toUpper⟩

/-- True iff the first character list is a prefix of the second. -/
def listStarts : List Char → List Char → Bool
  | [], _ => true
  | _ :: _, [] => false
  | c :: cs, d :: ds => c == d && listStarts cs ds

/-- Python's substring test `needle in hay` on strings, over their
character lists. -/
def hasSub (needle : List Char) : List Char → Bool
  | [] => needle.isEmpty
  | d :: ds => listStarts needle (d :: ds) || hasSub needle ds

/-- The `ALLOW` keyword list of `brassradar.py`. -/
def ALLOW : List String :=
  ["brass", "lok", "lokomotive", "locomotive", "zug", "train", "dampflok",
   "diesel", "ho", "h0", "h-o", "model", "modell", "bahn"]

/-- The `DENY` keyword list of `brassradar.py`. -/
def DENY : List String :=
  ["wiha", "schraubendreher", "screwdriver", "bit set", "werkzeug", "tool",
   "spanner", "pliers"]

/-- `relevant(title)` of `brassradar.py`: lower-case the title, reject if
any deny term occurs as a substring, otherwise accept iff some allow term
occurs as a substring. -/
def relevant (title : String) : Bool :=
  let t := lowerStr title
  if DENY.any (fun d => hasSub d.data t.data) then false
  else ALLOW.any (fun a => hasSub a.data t.data)

/-- The `FX` table of `brassradar.py`: units per USD. -/
def FX : List (String × ℚ) :=
  [("USD", 1), ("EUR", 92/100), ("GBP", 78/100), ("AUD", 148/100)]

/-- Dictionary lookup in the `FX` table. -/
def fxLookup (c : String) : Option ℚ :=
  (FX.find? (fun p => p.1 == c)).map (fun p => p.2)

/-- Round a rational to the nearest integer, ties to even (the ideal
semantics of Python's `round` on an exactly-representable value). -/
def pyRoundInt (q : ℚ) : ℤ :=
  if q - ⌊q⌋ = 1/2 then (if ⌊q⌋ % 2 = 0 then ⌊q⌋ else ⌊q⌋ + 1) else round q

/-- Python's `round(x, 2)`: round to two decimal places. -/
def round2 (q : ℚ) : ℚ := (pyRoundInt (q * 100) : ℚ) / 100

/-- `to_usd(value, ccy)` of `brassradar.py`: `None` when the value is
missing, the currency is missing or empty (falsy), or the upper-cased
code is not in `FX`; otherwise the value divided by the table rate,
rounded to two decimal places. -/
def to_usd (value : Option ℚ) (ccy : Option String) : Option ℚ :=
  match value, ccy with
  | none, _ => none
  | _, none => none
  | some v, some c0 =>
    if c0 = "" then none
    else
      match fxLookup (upperStr c0) with
      | none => none
      | some r => some (round2 (v / r))

/-- The pattern `float(d.get(k)) if d.get(k) else None` applied to a
numeric JSON field: a missing or zero (falsy) value becomes `none`. -/
def pyNum (v : Option ℚ) : Option ℚ :=
  match v with
  | some x => if x = 0 then none else some x
  | none => none

/-- A row of the `items` table (see `SCHEMA` in `brassradar.py`). -/
structure Listing where
  item_id : String
  title : String
  brand : String
  marketplace : String
  country : Option String
  buying_options : String
  is_auction : Bool
  condition : String
  item_web_url : String
  image_url : String
  image_path : Option String
  price_value : Option ℚ
  price_ccy : Option String
  ship_value : Option ℚ
  ship_ccy : Option String
  current_bid_value : Option ℚ
  current_bid_ccy : Option String
  end_time : Option String
  price_usd : Option ℚ
  ship_usd : Option ℚ
  status : String
  date_found : String
  date_updated : String
deriving DecidableEq

/-- A row of the `price_history` table, primary key `(item_id, observed_at)`. -/
structure HistRow where
  item_id : String
  observed_at : String
  price_value : Option ℚ
  price_ccy : Option String
  current_bid_value : Option ℚ
  current_bid_ccy : Option String
deriving DecidableEq

/-- A row of the `watchlist` table. -/
structure WatchRow where
  item_id : String
  marketplace : String
  end_time : Option String
  added_at : String
  last_checked : Option String
  status : String
  final_price : Option ℚ
  final_currency : Option String
deriving DecidableEq

/-- The sqlite database: the three tables of `SCHEMA`. -/
structure DB where
  items : List Listing
  price_history : List HistRow
  watchlist : List WatchRow
deriving DecidableEq

/-- The fields of an extended item-detail response that the pipeline
reads: `currentBidPrice.value`, `currentBidPrice.currency`,
`itemEndDate`.  The empty dict `{}` is all-`none`. -/
structure Detail where
  currentBidValue : Option ℚ
  currentBidCcy : Option String
  itemEndDate : Option String
deriving DecidableEq

/-- The empty detail dict returned on a non-success status. -/
def emptyDetail : Detail := ⟨none, none, none⟩

/-- An HTTP response of the item-detail endpoint: status code and parsed
body. -/
structure DetailResp where
  status : Nat
  body : Detail
deriving DecidableEq

/-- The fields of a search-page item summary that the pipeline reads. -/
structure SummaryItem where
  itemId : String
  title : String
  priceValue : Option ℚ
  priceCcy : Option String
  shipValue : Option ℚ
  shipCcy : Option String
  country : Option String
  buyingOptions : List String
  condition : String
  itemWebUrl : String
  imageUrl : String
deriving DecidableEq

/-- The structured message `notify_ended` builds and hands to the
delivery channels. -/
structure Notif where
  title : String
  final_price : Option ℚ
  final_currency : Option String
  item_web_url : String
deriving DecidableEq

/-- The listing row written to `items` by `upsert_item`: insert when no
row with that `item_id` exists, otherwise `ON CONFLICT(item_id) DO
UPDATE` overwriting every column except `item_id` and `date_found`. -/
def upsertItems (items : List Listing) (row : Listing) : List Listing :=
  if items.any (fun r => r.item_id == row.item_id) then
    items.map (fun r =>
      if r.item_id = row.item_id then { row with date_found := r.date_found } else r)
  else items ++ [row]

/-- The `price_history` row recorded by `upsert_item` for observation
instant `obsAt`. -/
def histOf (row : Listing) (obsAt : String) : HistRow :=
  { item_id := row.item_id
    observed_at := obsAt
    price_value := row.price_value
    price_ccy := row.price_ccy
    current_bid_value := row.current_bid_value
    current_bid_ccy := row.current_bid_ccy }

/-- `INSERT OR REPLACE INTO price_history`: drop any row with the same
`(item_id, observed_at)` key, then append the new observation. -/
def appendHist (hist : List HistRow) (row : Listing) (obsAt : String) : List HistRow :=
  hist.filter (fun h => !(h.item_id == row.item_id && h.observed_at == obsAt))
    ++ [histOf row obsAt]

/-- `upsert_item(con, row)` of `brassradar.py`; `obsAt` is the
`utc_now()` stamped on the price-history row. -/
def upsert_item (db : DB) (row : Listing) (obsAt : String) : DB :=
  { db with
    items := upsertItems db.items row
    price_history := appendHist db.price_history row obsAt }

/-- The per-row effect of `mark_ended`: a row that is `ACTIVE` and whose
id is outside the seen set becomes `ENDED` with `date_updated` refreshed;
every other row is untouched. -/
def sweepRow (now : String) (seen : List String) (r : Listing) : Listing :=
  if r.status = "ACTIVE" ∧ r.item_id ∉ seen then
    { r with status := "ENDED", date_updated := now }
  else r

/-- `mark_ended(con, active_ids)` of `brassradar.py`. -/
def mark_ended (now : String) (seen : List String) (items : List Listing) : List Listing :=
  items.map (sweepRow now seen)

/-- `add_to_watchlist(con, item_id, marketplace, end_time)`:
`INSERT ... ON CONFLICT(item_id) DO NOTHING` with a fresh `WATCHING`
entry. -/
def add_to_watchlist (wl : List WatchRow) (item_id mp : String)
    (end_time : Option String) (now : String) : List WatchRow :=
  if wl.any (fun w => w.item_id == item_id) then wl
  else wl ++ [{ item_id := item_id
                marketplace := mp
                end_time := end_time
                added_at := now
                last_checked := none
                status := "WATCHING"
                final_price := none
                final_currency := none }]

/-- `get_item_detail(token, marketplace, item_id)`: a raised transport
error propagates; a received response with a non-200 status becomes the
empty dict; a 200 response yields its body. -/
def getItemDetail (outcome : String → Except String DetailResp)
    (itemId : String) : Except String Detail :=
  match outcome itemId with
  | .error e => .error e
  | .ok resp => .ok (if resp.status = 200 then resp.body else emptyDetail)

/-- The ambient inputs of one `fetch_and_store` pass: the detail-fetch
oracle, the pass timestamp (all `utc_now()` calls of the pass), the
`save_images` toggle and the `download_image` oracle. -/
structure IngestCtx where
  outcome : String → Except String DetailResp
  now : String
  saveImages : Bool
  imgPath : String → Option String

/-- The canonical listing record built in the body of the ingestion loop
(`brassradar.py`, `fetch_and_store`, the `row = ...` dict). -/
def buildRow (ctx : IngestCtx) (mp : String) (it : SummaryItem)
    (isAuction : Bool) (opts : String) (detail : Detail) : Listing :=
  let bidV := pyNum detail.currentBidValue
  let bidC := detail.currentBidCcy
  let nativeV := match bidV with
    | some v => some v
    | none => pyNum it.priceValue
  let nativeC := match bidC with
    | some c => if c = "" then it.priceCcy else some c
    | none => it.priceCcy
  let shipV := pyNum it.shipValue
  { item_id := it.itemId
    title := it.title
    brand := if hasSub "metakit".data (lowerStr it.title).data then "Micro-Metakit"
             else "Micro-Feinmechanik"
    marketplace := mp
    country := it.country
    buying_options := opts
    is_auction := isAuction
    condition := it.condition
    item_web_url := it.itemWebUrl
    image_url := it.imageUrl
    image_path := if ctx.saveImages then ctx.imgPath it.itemId else none
    price_value := nativeV
    price_ccy := nativeC
    ship_value := shipV
    ship_ccy := it.shipCcy
    current_bid_value := bidV
    current_bid_ccy := bidC
    end_time := detail.itemEndDate
    price_usd := to_usd nativeV nativeC
    ship_usd := to_usd shipV it.shipCcy
    status := "ACTIVE"
    date_found := ctx.now
    date_updated := ctx.now }

/-- One iteration of the inner item loop of `fetch_and_store`: skip
irrelevant titles; for auctions fetch the extended detail (a raised
transport error propagates out of the loop, exactly as in the source,
which has no handler here); build the canonical row. -/
def processItem (ctx : IngestCtx) (mp : String) (it : SummaryItem) :
    Except String (Option Listing) :=
  if relevant it.title = false then .ok none
  else
    let opts := String.intercalate "," it.buyingOptions
    if hasSub "AUCTION".data opts.data then
      match getItemDetail ctx.outcome it.itemId with
      | .error e => .error e
      | .ok d => .ok (some (buildRow ctx mp it true opts d))
    else .ok (some (buildRow ctx mp it false opts emptyDetail))

/-- The inner item loop of `fetch_and_store` over one search-result
batch, threading the database, the seen set and the stored-row count. -/
def ingestItems (ctx : IngestCtx) (mp : String) :
    DB → List String → Nat → List SummaryItem → Except String (DB × List String × Nat)
  | db, seen, total, [] => .ok (db, seen, total)
  | db, seen, total, it :: rest =>
    match processItem ctx mp it with
    | .error e => .error e
    | .ok none => ingestItems ctx mp db seen total rest
    | .ok (some row) =>
      ingestItems ctx mp (upsert_item db row ctx.now) (seen ++ [row.item_id]) (total + 1) rest

/-- The marketplace × search-term double loop of `fetch_and_store`: each
batch is the paginated search result of one (marketplace, term) pair, in
loop order. -/
def ingestBatches (ctx : IngestCtx) :
    DB → List String → Nat → List (String × List SummaryItem) →
    Except String (DB × List String × Nat)
  | db, seen, total, [] => .ok (db, seen, total)
  | db, seen, total, (mp, its) :: rest =>
    match ingestItems ctx mp db seen total its with
    | .error e => .error e
    | .ok (db1, seen1, total1) => ingestBatches ctx db1 seen1 total1 rest

/-- `fetch_and_store` of `brassradar.py`: run the ingestion loops, then
(and only then) run the `mark_ended` sweep with the seen set of the pass,
and return the stored-row count.  An exception escaping the loops aborts
the whole pass. -/
def fetch_and_store (ctx : IngestCtx)
    (batches : List (String × List SummaryItem)) (db : DB) :
    Except String (DB × Nat) :=
  match ingestBatches ctx db [] 0 batches with
  | .error e => .error e
  | .ok (db1, seen, total) =>
    .ok ({ db1 with items := mark_ended ctx.now seen db1.items }, total)

/-- The ambient inputs of one `check_watchlist` pass: the abstract
timestamp parser (`datetime.fromisoformat` after the `Z` fix-up), the
current instant, the lookahead window in minutes, the `utc_now()` string
of the pass, the detail-fetch oracle, and the `items` table read during
the pass (the pass never writes `items`). -/
structure WatchCtx where
  parse : String → Option ℤ
  now : ℤ
  window : ℤ
  nowStr : String
  outcome : String → Except String DetailResp
  items : List Listing

/-- The skip test of `check_watchlist`: a present (truthy) and parseable
`end_time` strictly more than `window_minutes` in the future. -/
def skipEntry (ctx : WatchCtx) (e : WatchRow) : Bool :=
  match e.end_time with
  | none => false
  | some s =>
    if s = "" then false
    else
      match ctx.parse s with
      | none => false
      | some t => decide (ctx.now + ctx.window * 60 < t)

/-- The `if not bid_v` test of `check_watchlist` on the live detail: the
bid value is absent, or present but zero (falsy). -/
def noBid (d : Detail) : Bool :=
  d.currentBidValue = none ∨ d.currentBidValue = some 0

/-- The `UPDATE watchlist SET status='ENDED', final_price=?,
final_currency=?, last_checked=?` row: the entry after the closure
transition, stamped from the stored listing's last known bid. -/
def endedOf (ctx : WatchCtx) (e : WatchRow) (r : Listing) : WatchRow :=
  { e with status := "ENDED"
           final_price := r.current_bid_value
           final_currency := r.current_bid_ccy
           last_checked := some ctx.nowStr }

/-- The message `notify_ended` is called with on closure. -/
def notifOf (r : Listing) : Notif :=
  { title := r.title
    final_price := r.current_bid_value
    final_currency := r.current_bid_ccy
    item_web_url := r.item_web_url }

/-- The body of the per-entry loop of `check_watchlist`, for one
`WATCHING` row: returns the row after the pass, whether a detail fetch
was attempted, the notifications emitted for this entry, and the
contribution to the `updated` counter.  The surrounding `try/except`
turns a raised fetch error into "leave the entry for the next pass". -/
def checkEntry (ctx : WatchCtx) (e : WatchRow) :
    WatchRow × Bool × List Notif × Nat :=
  if skipEntry ctx e then (e, false, [], 0)
  else
    match getItemDetail ctx.outcome e.item_id with
    | .error _ => (e, true, [], 0)
    | .ok detail =>
      if noBid detail then
        match ctx.items.find? (fun r => r.item_id == e.item_id) with
        | some r =>
          if r.status = "ENDED" ∨ r.current_bid_value ≠ none then
            (endedOf ctx e r, true, [notifOf r], 1)
          else (e, true, [], 0)
        | none =>
          ({ e with status := "ENDED", last_checked := some ctx.nowStr }, true, [], 1)
      else ({ e with last_checked := some ctx.nowStr }, true, [], 0)

/-- The observable outcome of one `check_watchlist` pass: the watchlist
table afterwards, the ids for which a detail fetch was attempted, the
notifications emitted, and the returned `updated` counter. -/
structure PassOut where
  watchlist : List WatchRow
  fetchedIds : List String
  notifs : List Notif
  updated : Nat
deriving DecidableEq

/-- `check_watchlist(token, window_minutes)` of `brassradar.py`: the
`SELECT ... WHERE status='WATCHING'` loop runs `checkEntry` on every
`WATCHING` row and leaves every other row untouched. -/
def check_watchlist (ctx : WatchCtx) : List WatchRow → PassOut
  | [] => ⟨[], [], [], 0⟩
  | w :: ws =>
    let rest := check_watchlist ctx ws
    if w.status = "WATCHING" then
      let c := checkEntry ctx w
      ⟨c.1 :: rest.watchlist,
       (if c.2.1 then [w.item_id] else []) ++ rest.fetchedIds,
       c.2.2.1 ++ rest.notifs,
       c.2.2.2 + rest.updated⟩
    else ⟨w :: rest.watchlist, rest.fetchedIds, rest.notifs, rest.updated⟩

/-- A Python `datetime` value as `end_key` produces it: either an
offset-aware instant — `fromisoformat` after the `Z` → `+00:00` rewrite,
applied to the stored `itemEndDate` strings, which carry an offset — or
the offset-naive `datetime.max` fallback used for an absent (falsy) or
unparseable `end_time`. -/
inductive PyDT where
  | aware (t : ℤ)
  | naiveMax
deriving DecidableEq

/-- `end_key(r)` of the "Time: ending soonest" sort mode: the `try`
inside it guards only the key computation, so a missing or unparseable
value yields the naive `datetime.max`, never an error. -/
def end_key (parse : String → Option ℤ) (r : Listing) : PyDT :=
  match r.end_time with
  | none => .naiveMax
  | some s =>
    if s = "" then .naiveMax
    else
      match parse s with
      | none => .naiveMax
      | some t => .aware t

/-- Python's `<` on `datetime` values: two aware values compare by
instant, two naive values of `datetime.max` are equal, and comparing an
offset-naive with an offset-aware value raises `TypeError`. -/
def pyDTLt : PyDT → PyDT → Except String Bool
  | .aware a, .aware b => .ok (decide (a < b))
  | .naiveMax, .naiveMax => .ok false
  | _, _ => .error "TypeError"

/-- The instant of an aware value (used only to state the order of
all-aware outputs). -/
def awareVal : PyDT → ℤ
  | .aware t => t
  | .naiveMax => 0

/-- Key comparison of two rows, as `sorted(rows, key=end_key)` performs
it. -/
def keyLt (key : α → PyDT) (a b : α) : Except String Bool :=
  pyDTLt (key a) (key b)

/-- Stable insertion of `x` into an already-sorted prefix by a fallible
strict comparison; the first comparison that raises aborts the sort. -/
def insertSorted (lt : α → α → Except String Bool) (x : α) :
    List α → Except String (List α)
  | [] => .ok [x]
  | y :: ys =>
    match lt x y with
    | .error e => .error e
    | .ok true => .ok (x :: y :: ys)
    | .ok false =>
      match insertSorted lt x ys with
      | .error e => .error e
      | .ok zs => .ok (y :: zs)

/-- The element loop of a stable comparison sort with a fallible
comparison. -/
def pySortedAux (lt : α → α → Except String Bool) :
    List α → List α → Except String (List α)
  | acc, [] => .ok acc
  | acc, x :: xs =>
    match insertSorted lt x acc with
    | .error e => .error e
    | .ok acc2 => pySortedAux lt acc2 xs

/-- Python's `sorted` with a fallible comparison, as a stable insertion
sort.  CPython's timsort performs a different comparison sequence, but
on lists whose comparisons all succeed every stable comparison sort
yields the same ascending order, and on keys mixing offset-naive and
offset-aware datetimes every comparison sort must at some point compare
across the two classes, so both raise `TypeError`. -/
def pySorted (lt : α → α → Except String Bool) (l : List α) :
    Except String (List α) :=
  pySortedAux lt [] l

/-- `sorted(rows, key=end_key)` of the "Time: ending soonest" sort mode:
a `TypeError` raised by a key comparison propagates out of `sorted`. -/
def sortEndingSoonest (parse : String → Option ℤ) (rows : List Listing) :
    Except String (List Listing) :=
  pySorted (keyLt (end_key parse)) rows

/-- An empty database. -/
def dbEmpty : DB := ⟨[], [], []⟩

/-- A stored listing with a recorded bid of 610 USD. -/
def listing610 : Listing :=
  { item_id := "W1"
    title := "Micro-Metakit brass lok"
    brand := "Micro-Metakit"
    marketplace := "EBAY_US"
    country := some "US"
    buying_options := "AUCTION"
    is_auction := true
    condition := "Used"
    item_web_url := "url-w1"
    image_url := ""
    image_path := none
    price_value := some 610
    price_ccy := some "USD"
    ship_value := none
    ship_ccy := none
    current_bid_value := some 610
    current_bid_ccy := some "USD"
    end_time := some "PAST"
    price_usd := some 610
    ship_usd := none
    status := "ACTIVE"
    date_found := "T0"
    date_updated := "T0" }

/-- A stored `ACTIVE` listing with no recorded bid. -/
def listingNoBid : Listing :=
  { listing610 with
    item_id := "W3"
    current_bid_value := none
    current_bid_ccy := none
    price_usd := none }

/-- A tiny concrete timestamp parser for witnesses: `PAST` is instant 0,
`FUT` is instant 1000000, everything else is unparseable. -/
def parseW : String → Option ℤ :=
  fun s => if s = "PAST" then some 0 else if s = "FUT" then some 1000000 else none

/-- A detail oracle that always answers 200 with an empty body. -/
def outcomeEmpty200 : String → Except String DetailResp :=
  fun _ => .ok ⟨200, emptyDetail⟩

/-- A detail oracle that always answers 200 with a live bid of value 0. -/
def outcomeZeroBid : String → Except String DetailResp :=
  fun _ => .ok ⟨200, ⟨some 0, some "USD", some "FUT"⟩⟩

/-- A detail oracle whose every call raises a transport error. -/
def outcomeBoom : String → Except String DetailResp :=
  fun _ => .error "timeout"

/-- A detail oracle that always answers a non-success status 404. -/
def outcome404 : String → Except String DetailResp :=
  fun _ => .ok ⟨404, ⟨some 5, some "USD", some "FUT"⟩⟩

/-- A watch-check context over `listing610`, current instant 1000,
15-minute window. -/
def ctxW1 : WatchCtx :=
  { parse := parseW, now := 1000, window := 15, nowStr := "T1"
    outcome := outcomeEmpty200, items := [listing610] }

/-- A watch-check context over `listingNoBid` whose detail oracle
reports a live bid of value 0. -/
def ctxW10 : WatchCtx :=
  { parse := parseW, now := 1000, window := 15, nowStr := "T1"
    outcome := outcomeZeroBid, items := [listingNoBid] }

/-- A watch-check context whose detail oracle raises. -/
def ctxWBoom : WatchCtx :=
  { parse := parseW, now := 1000, window := 15, nowStr := "T1"
    outcome := outcomeBoom, items := [listing610] }

/-- A watch entry on `listing610` whose `end_time` is in the past. -/
def entryW1 : WatchRow :=
  { item_id := "W1", marketplace := "EBAY_US", end_time := some "PAST"
    added_at := "T0", last_checked := none, status := "WATCHING"
    final_price := none, final_currency := none }

/-- A watch entry whose `end_time` is far in the future. -/
def entryW7 : WatchRow :=
  { entryW1 with end_time := some "FUT" }

/-- A watch entry on `listingNoBid` with no stored `end_time`. -/
def entryW10 : WatchRow :=
  { entryW1 with item_id := "W3", end_time := none }

/-- An already-`ENDED` watch entry. -/
def entryEnded : WatchRow :=
  { item_id := "W2", marketplace := "EBAY_US", end_time := some "PAST"
    added_at := "T0", last_checked := some "T1", status := "ENDED"
    final_price := some 610, final_currency := some "USD" }

/-- A first observation of item `A123`, priced 500 EUR. -/
def rowA1 : Listing :=
  { listing610 with
    item_id := "A123"
    title := "brass train A123"
    brand := "Micro-Feinmechanik"
    is_auction := false
    buying_options := "FIXED_PRICE"
    current_bid_value := none
    current_bid_ccy := none
    end_time := none
    price_value := some 500
    price_ccy := some "EUR"
    price_usd := none
    date_found := "T1"
    date_updated := "T1" }

/-- A later observation of the same item with a different price. -/
def rowA2 : Listing :=
  { rowA1 with price_value := some 550, date_found := "T2", date_updated := "T2" }

/-- An auction search hit that is relevant by title. -/
def itAuction : SummaryItem :=
  { itemId := "X1", title := "brass locomotive", priceValue := some 100
    priceCcy := some "USD", shipValue := none, shipCcy := none
    country := some "US", buyingOptions := ["AUCTION"], condition := "Used"
    itemWebUrl := "url-x1", imageUrl := "" }

/-- A search hit rejected by the deny list. -/
def itJunk : SummaryItem :=
  { itAuction with itemId := "X2", title := "wiha screwdriver", buyingOptions := ["FIXED_PRICE"] }

/-- An ingestion context whose every detail fetch raises. -/
def ctxBoom : IngestCtx :=
  { outcome := outcomeBoom, now := "T9", saveImages := false, imgPath := fun _ => none }

/-- An ingestion context whose detail fetches answer 404. -/
def ctx404 : IngestCtx :=
  { outcome := outcome404, now := "T9", saveImages := false, imgPath := fun _ => none }

/-- A database holding one stale `ACTIVE` listing. -/
def dbOld : DB :=
  ⟨[{ listing610 with item_id := "OLD" }], [], []⟩

/-- A listing with no stored `end_time` (e.g. a fixed-price item), whose
sort key is the naive `datetime.max`. -/
def listingNoEnd : Listing :=
  { listing610 with item_id := "W4", end_time := none }

/-! Helper lemmas shared by the claim theorems. -/

/-- A `check_watchlist` pass distributes over list append: the rows,
fetch attempts, notifications and the `updated` counter of a pass over a
concatenation are the concatenations (resp. the sum) of the two parts. -/
theorem check_watchlist_append (ctx : WatchCtx) (l₁ l₂ : List WatchRow) :
    check_watchlist ctx (l₁ ++ l₂) =
      ⟨(check_watchlist ctx l₁).watchlist ++ (check_watchlist ctx l₂).watchlist,
       (check_watchlist ctx l₁).fetchedIds ++ (check_watchlist ctx l₂).fetchedIds,
       (check_watchlist ctx l₁).notifs ++ (check_watchlist ctx l₂).notifs,
       (check_watchlist ctx l₁).updated + (check_watchlist ctx l₂).updated⟩ := by
  induction l₁ with
  | nil => simp [check_watchlist]
  | cons w ws ih =>
    by_cases h : w.status = "WATCHING" <;>
      simp [check_watchlist, h, ih, List.append_assoc, Nat.add_assoc]

/-- Unfolding one `WATCHING` row of a `check_watchlist` pass. -/
theorem check_watchlist_cons_watching (ctx : WatchCtx) (w : WatchRow)
    (ws : List WatchRow) (h : w.status = "WATCHING") :
    check_watchlist ctx (w :: ws) =
      ⟨(checkEntry ctx w).1 :: (check_watchlist ctx ws).watchlist,
       (if (checkEntry ctx w).2.1 then [w.item_id] else []) ++ (check_watchlist ctx ws).fetchedIds,
       (checkEntry ctx w).2.2.1 ++ (check_watchlist ctx ws).notifs,
       (checkEntry ctx w).2.2.2 + (check_watchlist ctx ws).updated⟩ := by
  simp [check_watchlist, h]

/-- Unfolding one non-`WATCHING` row of a `check_watchlist` pass: the row
is not processed at all. -/
theorem check_watchlist_cons_other (ctx : WatchCtx) (w : WatchRow)
    (ws : List WatchRow) (h : ¬ w.status = "WATCHING") :
    check_watchlist ctx (w :: ws) =
      ⟨w :: (check_watchlist ctx ws).watchlist,
       (check_watchlist ctx ws).fetchedIds,
       (check_watchlist ctx ws).notifs,
       (check_watchlist ctx ws).updated⟩ := by
  simp [check_watchlist, h]

/-- `upsertItems` keeps every row whose key differs from the upserted
row's key. -/
theorem mem_upsertItems_of_ne (items : List Listing) (row r : Listing)
    (hr : r ∈ items) (hne : r.item_id ≠ row.item_id) :
    r ∈ upsertItems items row := by
  unfold upsertItems
  by_cases h : items.any (fun x => x.item_id == row.item_id)
  · rw [if_pos h]
    exact List.mem_map.mpr ⟨r, hr, if_neg hne⟩
  · rw [if_neg h]
    exact List.mem_append_left _ hr

/-- The item loop of a pass only rewrites `items` rows whose ids it adds
to the seen set, grows the seen set monotonically, and never writes the
watchlist. -/
theorem ingestItems_preserve (ctx : IngestCtx) (mp : String)
    (its : List SummaryItem) :
    ∀ db seen total db1 seen1 total1,
      ingestItems ctx mp db seen total its = .ok (db1, seen1, total1) →
      (∀ s ∈ seen, s ∈ seen1) ∧
      (∀ r ∈ db.items, r.item_id ∉ seen1 → r ∈ db1.items) ∧
      db1.watchlist = db.watchlist := by
  induction its with
  | nil =>
    intro db seen total db1 seen1 total1 h
    simp only [ingestItems, Except.ok.injEq, Prod.mk.injEq] at h
    obtain ⟨hdb, hseen, -⟩ := h
    subst hdb; subst hseen
    exact ⟨fun s hs => hs, fun r hr _ => hr, rfl⟩
  | cons it rest ih =>
    intro db seen total db1 seen1 total1 h
    simp only [ingestItems] at h
    cases hp : processItem ctx mp it with
    | error e => rw [hp] at h; exact absurd h (by simp)
    | ok o =>
      rw [hp] at h
      cases o with
      | none => exact ih db seen total db1 seen1 total1 h
      | some row =>
        obtain ⟨hmono, hpres, hwl⟩ := ih _ _ _ _ _ _ h
        have hrowid : row.item_id ∈ seen1 :=
          hmono row.item_id (List.mem_append_right _ (List.mem_singleton_self _))
        refine ⟨fun s hs => hmono s (List.mem_append_left _ hs), ?_, hwl⟩
        intro r hr hnot
        have hne : r.item_id ≠ row.item_id := fun hEq => hnot (hEq ▸ hrowid)
        exact hpres r (mem_upsertItems_of_ne db.items row r hr hne) hnot

/-- As `ingestItems_preserve`, for the whole marketplace × term loop. -/
theorem ingestBatches_preserve (ctx : IngestCtx)
    (batches : List (String × List SummaryItem)) :
    ∀ db seen total db1 seen1 total1,
      ingestBatches ctx db seen total batches = .ok (db1, seen1, total1) →
      (∀ s ∈ seen, s ∈ seen1) ∧
      (∀ r ∈ db.items, r.item_id ∉ seen1 → r ∈ db1.items) ∧
      db1.watchlist = db.watchlist := by
  induction batches with
  | nil =>
    intro db seen total db1 seen1 total1 h
    simp only [ingestBatches, Except.ok.injEq, Prod.mk.injEq] at h
    obtain ⟨hdb, hseen, -⟩ := h
    subst hdb; subst hseen
    exact ⟨fun s hs => hs, fun r hr _ => hr, rfl⟩
  | cons b rest ih =>
    intro db seen total db1 seen1 total1 h
    simp only [ingestBatches] at h
    cases hp : ingestItems ctx b.1 db seen total b.2 with
    | error e => rw [hp] at h; exact absurd h (by simp)
    | ok st =>
      obtain ⟨db2, seen2, total2⟩ := st
      rw [hp] at h
      obtain ⟨hmono1, hpres1, hwl1⟩ :=
        ingestItems_preserve ctx b.1 b.2 db seen total db2 seen2 total2 hp
      obtain ⟨hmono2, hpres2, hwl2⟩ := ih _ _ _ _ _ _ h
      refine ⟨fun s hs => hmono2 s (hmono1 s hs), ?_, hwl2.trans hwl1⟩
      intro r hr hnot
      exact hpres2 r (hpres1 r hr (fun hmem => hnot (hmono2 _ hmem))) hnot

/-- `upsertItems` with a fresh key appends the new row. -/
theorem upsertItems_absent (items : List Listing) (row : Listing)
    (h : ∀ r ∈ items, r.item_id ≠ row.item_id) :
    upsertItems items row = items ++ [row] := by
  have ha : items.any (fun x => x.item_id == row.item_id) = false := by
    simp only [List.any_eq_false, beq_iff_eq]
    exact h
  simp [upsertItems, ha]

/-- `upsertItems` with an existing key rewrites the conflicting row in
place, preserving its `date_found`. -/
theorem upsertItems_present (items : List Listing) (row : Listing)
    (h : ∃ r ∈ items, r.item_id = row.item_id) :
    upsertItems items row =
      items.map (fun r =>
        if r.item_id = row.item_id then { row with date_found := r.date_found } else r) := by
  have ha : items.any (fun x => x.item_id == row.item_id) = true := by
    simp only [List.any_eq_true, beq_iff_eq]
    exact h
  simp [upsertItems, ha]

/-- `appendHist` with a fresh `(item_id, observed_at)` key appends
exactly one observation row. -/
theorem appendHist_fresh (hist : List HistRow) (row : Listing) (obsAt : String)
    (h : ∀ x ∈ hist, ¬(x.item_id = row.item_id ∧ x.observed_at = obsAt)) :
    appendHist hist row obsAt = hist ++ [histOf row obsAt] := by
  unfold appendHist
  rw [List.filter_eq_self.mpr]
  intro x hx
  simpa using not_and_or.mp (h x hx)

/-- C3: `upsert_item` inserts a new Listing when the `item_id` is
absent; on conflict it overwrites all mutable fields with the new
observation's values while leaving `date_found` unchanged; every call
with a fresh `(item_id, now)` key appends exactly one `price_history`
row; and upserting the same `item_id` twice with different prices and
distinct observation times leaves exactly one items row, holding the
latest values, and exactly two `price_history` rows. -/
theorem upsert_item_semantics :
    (∀ (db : DB) (row : Listing) (obsAt : String),
      (∀ r ∈ db.items, r.item_id ≠ row.item_id) →
      (upsert_item db row obsAt).items = db.items ++ [row])
    ∧ (∀ (db : DB) (row : Listing) (obsAt : String),
      (∃ r ∈ db.items, r.item_id = row.item_id) →
      (upsert_item db row obsAt).items =
        db.items.map (fun r =>
          if r.item_id = row.item_id then { row with date_found := r.date_found } else r))
    ∧ (∀ (db : DB) (row : Listing) (obsAt : String),
      (∀ x ∈ db.price_history, ¬(x.item_id = row.item_id ∧ x.observed_at = obsAt)) →
      (upsert_item db row obsAt).price_history = db.price_history ++ [histOf row obsAt])
    ∧ (∀ (db : DB) (row1 row2 : Listing) (t1 t2 : String),
      row1.item_id = row2.item_id →
      (∀ r ∈ db.items, r.item_id ≠ row2.item_id) →
      (∀ x ∈ db.price_history, x.item_id ≠ row2.item_id) →
      t1 ≠ t2 →
      ((upsert_item (upsert_item db row1 t1) row2 t2).items.filter
          (fun r => r.item_id == row2.item_id))
        = [{ row2 with date_found := row1.date_found }]
      ∧ ((upsert_item (upsert_item db row1 t1) row2 t2).price_history.filter
          (fun x => x.item_id == row2.item_id))
        = [histOf row1 t1, histOf row2 t2]) := by
  refine ⟨?_, ?_, ?_, ?_⟩
  · intro db row obsAt h
    exact upsertItems_absent db.items row h
  · intro db row obsAt h
    exact upsertItems_present db.items row h
  · intro db row obsAt h
    exact appendHist_fresh db.price_history row obsAt h
  · intro db row1 row2 t1 t2 hid hfresh hhist hne
    have h1 : (upsert_item db row1 t1).items = db.items ++ [row1] :=
      upsertItems_absent db.items row1 (fun r hr hEq => hfresh r hr (hEq.trans hid))
    have h1h : (upsert_item db row1 t1).price_history =
        db.price_history ++ [histOf row1 t1] :=
      appendHist_fresh db.price_history row1 t1
        (fun x hx hk => hhist x hx (hk.1.trans hid))
    constructor
    · show (upsertItems (upsert_item db row1 t1).items row2).filter _ = _
      rw [h1, upsertItems_present _ row2 ⟨row1, by simp, hid⟩,
        List.map_append, List.filter_append]
      have hnil :
          ((db.items.map (fun r =>
            if r.item_id = row2.item_id then { row2 with date_found := r.date_found }
            else r)).filter (fun r => r.item_id == row2.item_id)) = [] := by
        rw [List.filter_eq_nil_iff]
        intro a ha
        obtain ⟨r, hr, hfr⟩ := List.mem_map.mp ha
        rw [if_neg (hfresh r hr)] at hfr
        subst hfr
        simpa using hfresh r hr
      rw [hnil]
      simp [hid]
    · show (appendHist (upsert_item db row1 t1).price_history row2 t2).filter _ = _
      rw [h1h, appendHist_fresh _ row2 t2 ?_, List.filter_append, List.filter_append]
      · have hnil : (db.price_history.filter (fun x => x.item_id == row2.item_id)) = [] := by
          rw [List.filter_eq_nil_iff]
          intro a ha
          simpa using hhist a ha
        rw [hnil]
        simp [histOf, hid]
      · intro x hx hk
        rcases List.mem_append.mp hx with hx1 | hx1
        · exact hhist x hx1 hk.1
        · have hx2 : x = histOf row1 t1 := by simpa using hx1
          subst hx2
          exact hne hk.2

/-- C5: `to_usd` returns `none` (never zero, never an exception) when
the amount is missing, the currency is missing or empty, or the
upper-cased code is absent from `FX`; for supported codes it returns the
amount divided by the units-per-USD rate rounded to two decimal places,
so 500 EUR maps to 543.48 and 20 EUR maps to 21.74. -/
theorem to_usd_unsupported_and_conversion :
    (∀ c, to_usd none c = none)
    ∧ (∀ v, to_usd v none = none)
    ∧ (∀ v, to_usd (some v) (some "") = none)
    ∧ (∀ (v : ℚ) (s : String), fxLookup (upperStr s) = none →
        to_usd (some v) (some s) = none)
    ∧ (∀ (v r : ℚ) (s : String), s ≠ "" → fxLookup (upperStr s) = some r →
        to_usd (some v) (some s) = some (round2 (v / r)))
    ∧ to_usd (some 500) (some "EUR") = some (54348/100)
    ∧ to_usd (some 20) (some "EUR") = some (2174/100) := by
  refine ⟨?_, ?_, ?_, ?_, ?_, ?_, ?_⟩
  · intro c; cases c <;> rfl
  · intro v; cases v <;> rfl
  · intro v; rfl
  · intro v s h
    by_cases hs : s = ""
    · subst hs; rfl
    · simp [to_usd, hs, h]
  · intro v r s hs h
    simp [to_usd, hs, h]
  · have hfx : fxLookup (upperStr "EUR") = some (92/100) := rfl
    have : to_usd (some 500) (some "EUR") = some (round2 ((500 : ℚ) / (92/100))) := by
      simp [to_usd, hfx]
    rw [this]
    norm_num [round2, pyRoundInt, round_eq, Int.floor_eq_iff]
  · have hfx : fxLookup (upperStr "EUR") = some (92/100) := rfl
    have : to_usd (some 20) (some "EUR") = some (round2 ((20 : ℚ) / (92/100))) := by
      simp [to_usd, hfx]
    rw [this]
    norm_num [round2, pyRoundInt, round_eq, Int.floor_eq_iff]

/-- C6: the relevance predicate rejects any title containing a deny term
(case-insensitively), regardless of allow matches; otherwise it accepts
iff some allow term occurs; the empty title is always rejected. -/
theorem relevant_deny_precedence :
    (∀ title : String,
      (∃ d ∈ DENY, hasSub d.data (lowerStr title).data = true) →
      relevant title = false)
    ∧ (∀ title : String,
      (∀ d ∈ DENY, hasSub d.data (lowerStr title).data = false) →
      (relevant title = true ↔ ∃ a ∈ ALLOW, hasSub a.data (lowerStr title).data = true))
    ∧ relevant "" = false := by
  refine ⟨?_, ?_, by decide⟩
  · intro title h
    have ha : DENY.any (fun d => hasSub d.data (lowerStr title).data) = true :=
      List.any_eq_true.mpr h
    simp [relevant, ha]
  · intro title h
    have ha : DENY.any (fun d => hasSub d.data (lowerStr title).data) = false :=
      List.any_eq_false.mpr (by simpa using h)
    simp [relevant, ha, List.any_eq_true]

/-- Inserting a naive-keyed element into a prefix containing an
aware-keyed element raises: the walk can never stop early, because a
naive key is never strictly below any key it can legally compare with. -/
theorem insertSorted_mixed_na (key : α → PyDT) (x : α) (hx : key x = .naiveMax)
    (acc : List α) (h : ∃ y ∈ acc, key y ≠ .naiveMax) :
    insertSorted (keyLt key) x acc = .error "TypeError" := by
  induction acc with
  | nil => simp at h
  | cons y ys ih =>
    cases hy : key y with
    | aware t => simp [insertSorted, keyLt, hx, hy, pyDTLt]
    | naiveMax =>
      have h' : ∃ z ∈ ys, key z ≠ .naiveMax := by
        obtain ⟨z, hz, hzne⟩ := h
        rcases List.mem_cons.mp hz with rfl | hz2
        · exact absurd hy hzne
        · exact ⟨z, hz2, hzne⟩
      simp [insertSorted, keyLt, hx, hy, pyDTLt, ih h']

/-- Inserting an aware-keyed element into a prefix headed by a
naive-keyed element raises on the very first comparison. -/
theorem insertSorted_mixed_an (key : α → PyDT) (x : α) (hx : key x ≠ .naiveMax)
    (y : α) (ys : List α) (hy : key y = .naiveMax) :
    insertSorted (keyLt key) x (y :: ys) = .error "TypeError" := by
  obtain ⟨tx, htx⟩ : ∃ t, key x = .aware t := by
    cases hkx : key x
    · exact ⟨_, rfl⟩
    · exact absurd hkx hx
  simp [insertSorted, keyLt, htx, hy, pyDTLt]

/-- Inserting a naive-keyed element into an all-naive prefix succeeds
and, the keys being equal, stably lands at the end. -/
theorem insertSorted_all_naive (key : α → PyDT) (x : α) (hx : key x = .naiveMax)
    (acc : List α) (h : ∀ y ∈ acc, key y = .naiveMax) :
    insertSorted (keyLt key) x acc = .ok (acc ++ [x]) := by
  induction acc with
  | nil => rfl
  | cons y ys ih =>
    have hy := h y (List.mem_cons_self y ys)
    have ih2 := ih (fun z hz => h z (List.mem_cons_of_mem y hz))
    simp [insertSorted, keyLt, hx, hy, pyDTLt, ih2]

/-- Inserting an aware-keyed element into an all-aware sorted prefix
succeeds, permutes, stays all-aware, and preserves sortedness. -/
theorem insertSorted_all_aware (key : α → PyDT) (x : α) (hx : key x ≠ .naiveMax)
    (acc : List α) (h : ∀ y ∈ acc, key y ≠ .naiveMax) :
    ∃ out, insertSorted (keyLt key) x acc = .ok out
      ∧ out.Perm (x :: acc)
      ∧ (∀ z ∈ out, key z ≠ .naiveMax)
      ∧ (List.Pairwise (fun a b => awareVal (key a) ≤ awareVal (key b)) acc →
         List.Pairwise (fun a b => awareVal (key a) ≤ awareVal (key b)) out) := by
  induction acc with
  | nil =>
    refine ⟨[x], rfl, List.Perm.refl _, ?_, fun _ => by simp⟩
    intro z hz
    rcases List.mem_singleton.mp hz with rfl
    exact hx
  | cons y ys ih =>
    obtain ⟨tx, htx⟩ : ∃ t, key x = .aware t := by
      cases hkx : key x
      · exact ⟨_, rfl⟩
      · exact absurd hkx hx
    have hy : key y ≠ .naiveMax := h y (List.mem_cons_self y ys)
    obtain ⟨ty, hty⟩ : ∃ t, key y = .aware t := by
      cases hky : key y
      · exact ⟨_, rfl⟩
      · exact absurd hky hy
    have hxy : awareVal (key x) = tx := by rw [htx]; rfl
    have hyy : awareVal (key y) = ty := by rw [hty]; rfl
    by_cases hlt : tx < ty
    · refine ⟨x :: y :: ys, ?_, List.Perm.refl _, ?_, ?_⟩
      · simp [insertSorted, keyLt, htx, hty, pyDTLt, hlt]
      · intro z hz
        rcases List.mem_cons.mp hz with rfl | hz2
        · exact hx
        · exact h z hz2
      · intro hsor
        refine List.Pairwise.cons ?_ hsor
        intro z hz
        rcases List.mem_cons.mp hz with rfl | hz2
        · rw [hxy, hyy]; exact le_of_lt hlt
        · have h1 : awareVal (key y) ≤ awareVal (key z) :=
            (List.pairwise_cons.mp hsor).1 z hz2
          rw [hxy]
          rw [hyy] at h1
          exact le_trans (le_of_lt hlt) h1
    · obtain ⟨out, hok, hperm, hall, hsort⟩ :=
        ih (fun z hz => h z (List.mem_cons_of_mem y hz))
      refine ⟨y :: out, ?_, ?_, ?_, ?_⟩
      · simp [insertSorted, keyLt, htx, hty, pyDTLt, hlt, hok]
      · exact List.Perm.trans (hperm.cons y) (List.Perm.swap x y ys)
      · intro z hz
        rcases List.mem_cons.mp hz with rfl | hz2
        · exact hy
        · exact hall z hz2
      · intro hsor
        refine List.Pairwise.cons ?_ (hsort (List.pairwise_cons.mp hsor).2)
        intro z hz
        have hz2 : z ∈ x :: ys := hperm.mem_iff.mp hz
        rcases List.mem_cons.mp hz2 with rfl | hz3
        · rw [hyy, hxy]; exact le_of_not_lt hlt
        · exact (List.pairwise_cons.mp hsor).1 z hz3

/-- A membership transfer along the loop invariant: the processed prefix
plus the remaining elements always hold the same rows. -/
theorem mem_shuffle (acc : List α) (x : α) (xs : List α) (acc2 : List α)
    (hperm : acc2.Perm (x :: acc)) (P : α → Prop)
    (h : ∃ a ∈ acc ++ x :: xs, P a) : ∃ a ∈ acc2 ++ xs, P a := by
  obtain ⟨a, ha, hP⟩ := h
  refine ⟨a, ?_, hP⟩
  rcases List.mem_append.mp ha with h1 | h1
  · exact List.mem_append_left _ (hperm.mem_iff.mpr (List.mem_cons_of_mem x h1))
  · rcases List.mem_cons.mp h1 with rfl | h2
    · exact List.mem_append_left _ (hperm.mem_iff.mpr (List.mem_cons_self _ _))
    · exact List.mem_append_right _ h2

/-- The sort loop on an all-naive input returns it unchanged (all keys
equal, stability). -/
theorem pySortedAux_all_naive (key : α → PyDT) (xs : List α) :
    ∀ acc : List α, (∀ y ∈ acc, key y = .naiveMax) → (∀ y ∈ xs, key y = .naiveMax) →
      pySortedAux (keyLt key) acc xs = .ok (acc ++ xs) := by
  induction xs with
  | nil =>
    intro acc _ _
    simp [pySortedAux]
  | cons x xs ih =>
    intro acc hacc hxs
    have hx : key x = .naiveMax := hxs x (List.mem_cons_self x xs)
    have hok := insertSorted_all_naive key x hx acc hacc
    have hall2 : ∀ y ∈ acc ++ [x], key y = .naiveMax := by
      intro y hy
      rcases List.mem_append.mp hy with h1 | h1
      · exact hacc y h1
      · rcases List.mem_singleton.mp h1 with rfl
        exact hx
    have ih2 := ih (acc ++ [x]) hall2 (fun z hz => hxs z (List.mem_cons_of_mem x hz))
    simp [pySortedAux, hok, ih2]

/-- The sort loop on an all-aware input succeeds with a permutation
sorted ascending by instant. -/
theorem pySortedAux_all_aware (key : α → PyDT) (xs : List α) :
    ∀ acc : List α, (∀ y ∈ acc, key y ≠ .naiveMax) → (∀ y ∈ xs, key y ≠ .naiveMax) →
      List.Pairwise (fun a b => awareVal (key a) ≤ awareVal (key b)) acc →
      ∃ out, pySortedAux (keyLt key) acc xs = .ok out
        ∧ out.Perm (acc ++ xs)
        ∧ (∀ z ∈ out, key z ≠ .naiveMax)
        ∧ List.Pairwise (fun a b => awareVal (key a) ≤ awareVal (key b)) out := by
  induction xs with
  | nil =>
    intro acc hacc _ hsor
    exact ⟨acc, rfl, by simp, hacc, hsor⟩
  | cons x xs ih =>
    intro acc hacc hxs hsor
    have hx : key x ≠ .naiveMax := hxs x (List.mem_cons_self x xs)
    obtain ⟨acc2, hok, hperm, hall, hsor2⟩ := insertSorted_all_aware key x hx acc hacc
    obtain ⟨out, hok2, hperm2, hall2, hsor3⟩ :=
      ih acc2 hall (fun z hz => hxs z (List.mem_cons_of_mem x hz)) (hsor2 hsor)
    refine ⟨out, ?_, ?_, hall2, hsor3⟩
    · simp [pySortedAux, hok, hok2]
    · exact List.Perm.trans hperm2
        (List.Perm.trans (hperm.append_right xs) List.perm_middle.symm)

/-- The sort loop raises `TypeError` whenever the rows it still holds
mix an aware key with a naive key: the processed prefix can never become
mixed, and the first element of the other class to arrive raises. -/
theorem pySortedAux_mixed (key : α → PyDT) (xs : List α) :
    ∀ acc : List α,
      ((∀ y ∈ acc, key y ≠ .naiveMax) ∨ (∀ y ∈ acc, key y = .naiveMax)) →
      (∃ a ∈ acc ++ xs, key a ≠ .naiveMax) →
      (∃ b ∈ acc ++ xs, key b = .naiveMax) →
      pySortedAux (keyLt key) acc xs = .error "TypeError" := by
  induction xs with
  | nil =>
    intro acc hhom hA hB
    obtain ⟨a, ha, hane⟩ := hA
    obtain ⟨b, hb, hbe⟩ := hB
    simp only [List.append_nil] at ha hb
    rcases hhom with hh | hh
    · exact absurd hbe (hh b hb)
    · exact absurd (hh a ha) hane
  | cons x xs ih =>
    intro acc hhom hA hB
    by_cases hx : key x = .naiveMax
    · rcases hhom with hh | hh
      · cases acc with
        | nil =>
          have hperm : ([x] : List α).Perm (x :: ([] : List α)) := List.Perm.refl _
          have hA' := mem_shuffle [] x xs [x] hperm _ hA
          have hB' := mem_shuffle [] x xs [x] hperm _ hB
          have hrec := ih [x]
            (Or.inr (by
              intro y hy
              rcases List.mem_singleton.mp hy with rfl
              exact hx)) hA' hB'
          simpa [pySortedAux] using hrec
        | cons y ys =>
          have herr := insertSorted_mixed_na key x hx (y :: ys)
            ⟨y, List.mem_cons_self y ys, hh y (List.mem_cons_self y ys)⟩
          simp [pySortedAux, herr]
      · have hok := insertSorted_all_naive key x hx acc hh
        have hall2 : ∀ y ∈ acc ++ [x], key y = .naiveMax := by
          intro y hy
          rcases List.mem_append.mp hy with h1 | h1
          · exact hh y h1
          · rcases List.mem_singleton.mp h1 with rfl
            exact hx
        have hperm : (acc ++ [x]).Perm (x :: acc) := List.perm_append_singleton x acc
        have hrec := ih (acc ++ [x]) (Or.inr hall2)
          (mem_shuffle acc x xs _ hperm _ hA) (mem_shuffle acc x xs _ hperm _ hB)
        simp [pySortedAux, hok, hrec]
    · rcases hhom with hh | hh
      · obtain ⟨acc2, hok, hperm, hall, -⟩ := insertSorted_all_aware key x hx acc hh
        have hrec := ih acc2 (Or.inl hall)
          (mem_shuffle acc x xs _ hperm _ hA) (mem_shuffle acc x xs _ hperm _ hB)
        simp [pySortedAux, hok, hrec]
      · cases acc with
        | nil =>
          have hperm : ([x] : List α).Perm (x :: ([] : List α)) := List.Perm.refl _
          have hrec := ih [x]
            (Or.inl (by
              intro y hy
              rcases List.mem_singleton.mp hy with rfl
              exact hx))
            (mem_shuffle [] x xs [x] hperm _ hA) (mem_shuffle [] x xs [x] hperm _ hB)
          simpa [pySortedAux] using hrec
        | cons y ys =>
          have herr := insertSorted_mixed_an key x hx y ys (hh y (List.mem_cons_self y ys))
          simp [pySortedAux, herr]

/-- C9 (code bug): `end_key` maps a parseable `end_time` to an
offset-aware datetime but falls back to the offset-naive `datetime.max`,
and Python refuses to order naive against aware — so on any input mixing
a parseable end time with an absent or unparseable one, `sorted` raises
`TypeError` instead of placing the unparseable rows last; the intended
behaviour (ascending parsed order, unchanged all-naive input) holds only
on inputs whose keys are all of one class.  The last two conjuncts
evaluate the sort at a concrete failing input in both element orders. -/
theorem sort_ending_soonest_type_error :
    (∀ (parse : String → Option ℤ) (rows : List Listing),
      (∃ a ∈ rows, end_key parse a ≠ .naiveMax) →
      (∃ b ∈ rows, end_key parse b = .naiveMax) →
      sortEndingSoonest parse rows = .error "TypeError")
    ∧ (∀ (parse : String → Option ℤ) (rows : List Listing),
      (∀ r ∈ rows, end_key parse r ≠ .naiveMax) →
      ∃ out, sortEndingSoonest parse rows = .ok out
        ∧ out.Perm rows
        ∧ List.Pairwise (fun a b =>
            awareVal (end_key parse a) ≤ awareVal (end_key parse b)) out)
    ∧ (∀ (parse : String → Option ℤ) (rows : List Listing),
      (∀ r ∈ rows, end_key parse r = .naiveMax) →
      sortEndingSoonest parse rows = .ok rows)
    ∧ sortEndingSoonest parseW [listing610, listingNoEnd] = .error "TypeError"
    ∧ sortEndingSoonest parseW [listingNoEnd, listing610] = .error "TypeError" := by
  refine ⟨?_, ?_, ?_, rfl, rfl⟩
  · intro parse rows hA hB
    exact pySortedAux_mixed (end_key parse) rows []
      (Or.inl (by intro y hy; simp at hy))
      (by simpa using hA) (by simpa using hB)
  · intro parse rows h
    obtain ⟨out, hok, hperm, -, hsor⟩ :=
      pySortedAux_all_aware (end_key parse) rows [] (by intro y hy; simp at hy) h
        List.Pairwise.nil
    exact ⟨out, hok, by simpa using hperm, hsor⟩
  · intro parse rows h
    have := pySortedAux_all_naive (end_key parse) rows [] (by intro y hy; simp at hy) h
    simpa [sortEndingSoonest, pySorted] using this

/-- C4: in a `fetch_and_store` pass the `mark_ended` sweep is applied to
the database state after all of the pass's upserts, with the seen set of
the pass; every listing that was `ACTIVE` before the pass and whose id is
outside the seen set ends the pass `ENDED` with `date_updated` refreshed
and `date_found` unchanged; and the sweep does not modify rows whose id
is in the seen set or whose stored status is not `ACTIVE`. -/
theorem mark_ended_sweep_after_pass (ctx : IngestCtx)
    (batches : List (String × List SummaryItem)) (db db1 : DB)
    (seen : List String) (total : Nat)
    (h : ingestBatches ctx db [] 0 batches = .ok (db1, seen, total)) :
    fetch_and_store ctx batches db =
      .ok ({ db1 with items := mark_ended ctx.now seen db1.items }, total)
    ∧ (∀ r ∈ db.items, r.status = "ACTIVE" → r.item_id ∉ seen →
        { r with status := "ENDED", date_updated := ctx.now } ∈
          mark_ended ctx.now seen db1.items
        ∧ ({ r with status := "ENDED", date_updated := ctx.now }).date_found
            = r.date_found)
    ∧ (∀ l : Listing, l.item_id ∈ seen ∨ ¬ l.status = "ACTIVE" →
        sweepRow ctx.now seen l = l)
    ∧ mark_ended ctx.now seen db1.items = db1.items.map (sweepRow ctx.now seen) := by
  obtain ⟨-, hpres, -⟩ := ingestBatches_preserve ctx batches db [] 0 db1 seen total h
  refine ⟨?_, ?_, ?_, rfl⟩
  · unfold fetch_and_store
    rw [h]
  · intro r hr hact hnot
    have hr1 : r ∈ db1.items := hpres r hr hnot
    constructor
    · refine List.mem_map.mpr ⟨r, hr1, ?_⟩
      unfold sweepRow
      rw [if_pos ⟨hact, hnot⟩]
    · rfl
  · intro l hl
    unfold sweepRow
    rw [if_neg]
    intro hc
    rcases hl with hl | hl
    · exact hc.2 hl
    · exact hl hc.1

/-- C1: a check pass over a `WATCHING` entry that is not skipped, whose
live detail carries no (truthy) current bid, and whose stored listing
exists with stored status `ENDED` or a non-null recorded bid, transitions
the entry to `ENDED`, stamps `final_price`/`final_currency` from the
listing's stored bid, updates `last_checked`, and emits exactly one
notification for that entry; the full pass over any watchlist containing
the entry does exactly that to it. -/
theorem check_watchlist_closure_ends_and_notifies_once
    (ctx : WatchCtx) (e : WatchRow) (r : Listing) (d : Detail)
    (hw : e.status = "WATCHING")
    (hskip : skipEntry ctx e = false)
    (hd : getItemDetail ctx.outcome e.item_id = .ok d)
    (hnb : noBid d = true)
    (hr : ctx.items.find? (fun x => x.item_id == e.item_id) = some r)
    (hclosed : r.status = "ENDED" ∨ r.current_bid_value ≠ none) :
    checkEntry ctx e = (endedOf ctx e r, true, [notifOf r], 1)
    ∧ endedOf ctx e r =
        { e with status := "ENDED", final_price := r.current_bid_value,
                 final_currency := r.current_bid_ccy, last_checked := some ctx.nowStr }
    ∧ (∀ wl₁ wl₂ : List WatchRow,
        check_watchlist ctx (wl₁ ++ e :: wl₂) =
          ⟨(check_watchlist ctx wl₁).watchlist ++
             (endedOf ctx e r :: (check_watchlist ctx wl₂).watchlist),
           (check_watchlist ctx wl₁).fetchedIds ++
             (e.item_id :: (check_watchlist ctx wl₂).fetchedIds),
           (check_watchlist ctx wl₁).notifs ++
             (notifOf r :: (check_watchlist ctx wl₂).notifs),
           (check_watchlist ctx wl₁).updated +
             (1 + (check_watchlist ctx wl₂).updated)⟩) := by
  have h1 : checkEntry ctx e = (endedOf ctx e r, true, [notifOf r], 1) := by
    simp [checkEntry, hskip, hd, hnb, hr, hclosed]
  refine ⟨h1, rfl, ?_⟩
  intro wl₁ wl₂
  rw [check_watchlist_append, check_watchlist_cons_watching ctx e wl₂ hw, h1]
  simp

/-- C7: a check pass skips a `WATCHING` entry whose `end_time` is
present, parseable and more than the lookahead window in the future:
no detail fetch is attempted and every field of the entry, including
`last_checked` and `status`, is left unchanged — also across a full pass
over any watchlist containing the entry. -/
theorem check_watchlist_far_future_skip
    (ctx : WatchCtx) (e : WatchRow) (s : String) (t : ℤ)
    (hw : e.status = "WATCHING")
    (hs : e.end_time = some s) (hne : s ≠ "")
    (hp : ctx.parse s = some t)
    (hfut : ctx.now + ctx.window * 60 < t) :
    checkEntry ctx e = (e, false, [], 0)
    ∧ (∀ wl₁ wl₂ : List WatchRow,
        check_watchlist ctx (wl₁ ++ e :: wl₂) =
          ⟨(check_watchlist ctx wl₁).watchlist ++
             (e :: (check_watchlist ctx wl₂).watchlist),
           (check_watchlist ctx wl₁).fetchedIds ++ (check_watchlist ctx wl₂).fetchedIds,
           (check_watchlist ctx wl₁).notifs ++ (check_watchlist ctx wl₂).notifs,
           (check_watchlist ctx wl₁).updated + (check_watchlist ctx wl₂).updated⟩) := by
  have hskip : skipEntry ctx e = true := by
    simp [skipEntry, hs, hne, hp, hfut]
  have h1 : checkEntry ctx e = (e, false, [], 0) := by
    simp [checkEntry, hskip]
  refine ⟨h1, ?_⟩
  intro wl₁ wl₂
  rw [check_watchlist_append, check_watchlist_cons_watching ctx e wl₂ hw, h1]
  simp

/-- C10: when the live detail of a non-skipped `WATCHING` entry carries
no current bid (absent, or present with falsy value 0) while the stored
listing exists, is `ACTIVE` and has no recorded bid, the check pass
leaves the entry completely unchanged: still `WATCHING`, `last_checked`
not updated, and no notification emitted — though a detail fetch was
attempted. -/
theorem check_watchlist_no_bid_active_listing_untouched
    (ctx : WatchCtx) (e : WatchRow) (r : Listing) (d : Detail)
    (hw : e.status = "WATCHING")
    (hskip : skipEntry ctx e = false)
    (hd : getItemDetail ctx.outcome e.item_id = .ok d)
    (hnb : d.currentBidValue = none ∨ d.currentBidValue = some 0)
    (hr : ctx.items.find? (fun x => x.item_id == e.item_id) = some r)
    (hact : r.status = "ACTIVE")
    (hnobid : r.current_bid_value = none) :
    checkEntry ctx e = (e, true, [], 0)
    ∧ (∀ wl₁ wl₂ : List WatchRow,
        check_watchlist ctx (wl₁ ++ e :: wl₂) =
          ⟨(check_watchlist ctx wl₁).watchlist ++
             (e :: (check_watchlist ctx wl₂).watchlist),
           (check_watchlist ctx wl₁).fetchedIds ++
             (e.item_id :: (check_watchlist ctx wl₂).fetchedIds),
           (check_watchlist ctx wl₁).notifs ++ (check_watchlist ctx wl₂).notifs,
           (check_watchlist ctx wl₁).updated + (check_watchlist ctx wl₂).updated⟩) := by
  have hnb' : noBid d = true := by
    simp only [noBid, decide_eq_true_eq]
    exact hnb
  have h1 : checkEntry ctx e = (e, true, [], 0) := by
    simp [checkEntry, hskip, hd, hnb', hr, hact, hnobid]
  refine ⟨h1, ?_⟩
  intro wl₁ wl₂
  rw [check_watchlist_append, check_watchlist_cons_watching ctx e wl₂ hw, h1]
  simp

/-- C2: a `check_watchlist` pass does not touch a row whose status is not
`WATCHING` — an `ENDED` entry keeps every field, including `final_price`,
and contributes no fetch, no notification and no update count — and
`add_to_watchlist` on an already-present `item_id` is a no-op, whatever
the existing entry's status; `upsert_item` never writes the watchlist. -/
theorem watch_entry_ended_terminal_and_add_idempotent :
    (∀ (ctx : WatchCtx) (wl₁ wl₂ : List WatchRow) (e : WatchRow),
      e.status = "ENDED" →
      check_watchlist ctx (wl₁ ++ e :: wl₂) =
        ⟨(check_watchlist ctx wl₁).watchlist ++
           (e :: (check_watchlist ctx wl₂).watchlist),
         (check_watchlist ctx wl₁).fetchedIds ++ (check_watchlist ctx wl₂).fetchedIds,
         (check_watchlist ctx wl₁).notifs ++ (check_watchlist ctx wl₂).notifs,
         (check_watchlist ctx wl₁).updated + (check_watchlist ctx wl₂).updated⟩)
    ∧ (∀ (wl : List WatchRow) (i mp : String) (et : Option String) (now : String),
        (∃ w ∈ wl, w.item_id = i) → add_to_watchlist wl i mp et now = wl)
    ∧ (∀ (db : DB) (row : Listing) (t : String),
        (upsert_item db row t).watchlist = db.watchlist) := by
  refine ⟨?_, ?_, ?_⟩
  · intro ctx wl₁ wl₂ e he
    have hne : ¬ e.status = "WATCHING" := by
      rw [he]
      decide
    rw [check_watchlist_append, check_watchlist_cons_other ctx e wl₂ hne]
  · intro wl i mp et now h
    have ha : wl.any (fun w => w.item_id == i) = true :=
      List.any_eq_true.mpr (by simpa using h)
    simp [add_to_watchlist, ha]
  · intro db row t
    rfl

/-- C8 counterexample: `fetch_and_store` has no handler around the
per-item detail fetch, so a raised timeout on one auction item's detail
fetch aborts the enclosing marketplace/term loop and the whole ingestion
pass — here a concrete relevant auction item whose detail fetch raises
`timeout` makes the whole pass return that error (the second batch is
never reached), contradicting the claim that such an error never aborts
the pass. -/
theorem detail_fetch_error_aborts_ingestion_pass :
    relevant itAuction.title = true
    ∧ hasSub "AUCTION".data (String.intercalate "," itAuction.buyingOptions).data = true
    ∧ fetch_and_store ctxBoom
        [("EBAY_US", [itAuction]), ("EBAY_DE", [itJunk])] dbEmpty
      = Except.error "timeout" := by
  refine ⟨by decide, by decide, rfl⟩

/-- C8 amended: a non-success detail response degrades to an empty
result and the auction item is stored unenriched (no bid, no bid
currency, no end time, listing price used); but a raised timeout or
transport error on one item-detail fetch propagates: it aborts the
enclosing item loop and the whole `fetch_and_store` pass.  Only
`check_watchlist` catches per-item exceptions and leaves the entry for
the next pass. -/
theorem detail_fetch_degradation_amended :
    (∀ (outcome : String → Except String DetailResp) (id : String) (resp : DetailResp),
        outcome id = .ok resp → resp.status ≠ 200 →
        getItemDetail outcome id = .ok emptyDetail)
    ∧ (∀ (ctx : IngestCtx) (mp : String) (it : SummaryItem),
        relevant it.title = true →
        hasSub "AUCTION".data (String.intercalate "," it.buyingOptions).data = true →
        getItemDetail ctx.outcome it.itemId = .ok emptyDetail →
        processItem ctx mp it =
          .ok (some (buildRow ctx mp it true (String.intercalate "," it.buyingOptions)
            emptyDetail))
        ∧ (buildRow ctx mp it true (String.intercalate "," it.buyingOptions)
            emptyDetail).current_bid_value = none
        ∧ (buildRow ctx mp it true (String.intercalate "," it.buyingOptions)
            emptyDetail).current_bid_ccy = none
        ∧ (buildRow ctx mp it true (String.intercalate "," it.buyingOptions)
            emptyDetail).end_time = none
        ∧ (buildRow ctx mp it true (String.intercalate "," it.buyingOptions)
            emptyDetail).price_value = pyNum it.priceValue)
    ∧ (∀ (ctx : IngestCtx) (mp : String) (it : SummaryItem) (err : String)
        (db : DB) (seen : List String) (total : Nat) (rest : List SummaryItem)
        (bs : List (String × List SummaryItem)),
        processItem ctx mp it = .error err →
        ingestItems ctx mp db seen total (it :: rest) = .error err
        ∧ fetch_and_store ctx ((mp, it :: rest) :: bs) db = .error err)
    ∧ (∀ (ctx : WatchCtx) (e : WatchRow) (err : String),
        skipEntry ctx e = false →
        getItemDetail ctx.outcome e.item_id = .error err →
        checkEntry ctx e = (e, true, [], 0)) := by
  refine ⟨?_, ?_, ?_, ?_⟩
  · intro outcome id resp hok hst
    unfold getItemDetail
    rw [hok]
    simp [hst]
  · intro ctx mp it hrel hauc hd
    have hnotfalse : ¬ relevant it.title = false := by
      rw [hrel]
      decide
    refine ⟨?_, rfl, rfl, rfl, rfl⟩
    unfold processItem
    rw [if_neg hnotfalse, if_pos hauc, hd]
  · intro ctx mp it err db seen total rest bs hp
    have hItems : ingestItems ctx mp db seen total (it :: rest) = .error err := by
      unfold ingestItems
      rw [hp]
    refine ⟨hItems, ?_⟩
    have hItems0 : ingestItems ctx mp db [] 0 (it :: rest) = .error err := by
      unfold ingestItems
      rw [hp]
    unfold fetch_and_store ingestBatches
    rw [hItems0]
  · intro ctx e err hskip hd
    simp [checkEntry, hskip, hd]

/-- Witness for C1: a past-ended watch on `listing610` (stored bid of
610 USD) transitions to `ENDED` with `final_price` 610 and exactly one
notification. -/
theorem check_watchlist_closure_ends_and_notifies_once_witness :
    checkEntry ctxW1 entryW1 = (endedOf ctxW1 entryW1 listing610, true, [notifOf listing610], 1)
    ∧ (endedOf ctxW1 entryW1 listing610).final_price = some 610
    ∧ (endedOf ctxW1 entryW1 listing610).status = "ENDED"
    ∧ (notifOf listing610).final_price = some 610 :=
  ⟨(check_watchlist_closure_ends_and_notifies_once ctxW1 entryW1 listing610 emptyDetail
      rfl rfl rfl rfl rfl (Or.inr (by decide))).1, rfl, rfl, rfl⟩

/-- Witness for C2: a pass over a singleton `ENDED` watchlist changes
nothing and emits nothing, and re-adding the same id is a no-op. -/
theorem watch_entry_ended_terminal_and_add_idempotent_witness :
    check_watchlist ctxW1 [entryEnded] = ⟨[entryEnded], [], [], 0⟩
    ∧ add_to_watchlist [entryEnded] "W2" "EBAY_US" (some "PAST") "T2" = [entryEnded] := by
  constructor
  · have h := watch_entry_ended_terminal_and_add_idempotent.1 ctxW1 [] [] entryEnded rfl
    simpa [check_watchlist] using h
  · exact watch_entry_ended_terminal_and_add_idempotent.2.1 [entryEnded] "W2" "EBAY_US"
      (some "PAST") "T2" ⟨entryEnded, List.mem_singleton_self _, rfl⟩

/-- Witness for C3: upserting `A123` twice with different prices and
distinct observation times leaves one items row with the latest values
(`date_found` from the first observation) and two history rows. -/
theorem upsert_item_semantics_witness :
    ((upsert_item (upsert_item dbEmpty rowA1 "T1") rowA2 "T2").items.filter
        (fun r => r.item_id == rowA2.item_id)) = [{ rowA2 with date_found := rowA1.date_found }]
    ∧ ((upsert_item (upsert_item dbEmpty rowA1 "T1") rowA2 "T2").price_history.filter
        (fun x => x.item_id == rowA2.item_id)) = [histOf rowA1 "T1", histOf rowA2 "T2"] :=
  upsert_item_semantics.2.2.2 dbEmpty rowA1 rowA2 "T1" "T2" rfl
    (by intro r hr; simp [dbEmpty] at hr)
    (by intro x hx; simp [dbEmpty] at hx)
    (by decide)

/-- Witness for C4: a pass that stores nothing sweeps the stale `ACTIVE`
listing `OLD` to `ENDED` with `date_updated` refreshed. -/
theorem mark_ended_sweep_after_pass_witness :
    fetch_and_store ctxBoom [("EBAY_US", [itJunk])] dbOld =
      Except.ok ({ dbOld with items := mark_ended "T9" [] dbOld.items }, 0)
    ∧ { listing610 with item_id := "OLD", status := "ENDED", date_updated := "T9" } ∈
        mark_ended "T9" [] dbOld.items := by
  have h := mark_ended_sweep_after_pass ctxBoom [("EBAY_US", [itJunk])] dbOld dbOld [] 0 rfl
  refine ⟨h.1, ?_⟩
  exact (h.2.1 { listing610 with item_id := "OLD" } (by simp [dbOld]) rfl (by simp)).1

/-- Witness for C5: unsupported code, missing amount and missing
currency all yield `none`; a supported lower-case code converts. -/
theorem to_usd_unsupported_and_conversion_witness :
    to_usd (some 5) (some "XXX") = none
    ∧ to_usd none (some "EUR") = none
    ∧ to_usd (some 5) none = none
    ∧ to_usd (some 5) (some "") = none
    ∧ to_usd (some 5) (some "usd") = some (round2 (5 / 1)) :=
  ⟨to_usd_unsupported_and_conversion.2.2.2.1 5 "XXX" rfl,
   to_usd_unsupported_and_conversion.1 (some "EUR"),
   to_usd_unsupported_and_conversion.2.1 (some 5),
   to_usd_unsupported_and_conversion.2.2.1 5,
   to_usd_unsupported_and_conversion.2.2.2.2.1 5 1 "usd" (by decide) rfl⟩

/-- Witness for C6: a deny term wins over an allow term, and an
allow-only title is accepted. -/
theorem relevant_deny_precedence_witness :
    relevant "Brass screwdriver" = false ∧ relevant "Brass Lok" = true := by
  constructor
  · exact relevant_deny_precedence.1 "Brass screwdriver"
      ⟨"screwdriver", by decide, by decide⟩
  · exact (relevant_deny_precedence.2.1 "Brass Lok" (by decide)).mpr
      ⟨"brass", by decide, by decide⟩

/-- Witness for C7: a watch three hours from its end with a 15-minute
window is skipped: no fetch, no field changed. -/
theorem check_watchlist_far_future_skip_witness :
    checkEntry ctxW1 entryW7 = (entryW7, false, [], 0) :=
  (check_watchlist_far_future_skip ctxW1 entryW7 "FUT" 1000000
    rfl rfl (by decide) rfl (by decide)).1

/-- Witness for the amended C8: a 404 detail degrades to the empty
result and the auction item is still stored; a raised timeout aborts the
item loop and the whole pass; the watch pass catches the same error. -/
theorem detail_fetch_degradation_amended_witness :
    getItemDetail outcome404 "X1" = Except.ok emptyDetail
    ∧ processItem ctx404 "EBAY_US" itAuction =
        Except.ok (some (buildRow ctx404 "EBAY_US" itAuction true
          (String.intercalate "," itAuction.buyingOptions) emptyDetail))
    ∧ ingestItems ctxBoom "EBAY_US" dbEmpty [] 0 [itAuction] = Except.error "timeout"
    ∧ fetch_and_store ctxBoom [("EBAY_US", [itAuction])] dbEmpty = Except.error "timeout"
    ∧ checkEntry ctxWBoom entryW1 = (entryW1, true, [], 0) := by
  have h3 := detail_fetch_degradation_amended.2.2.1 ctxBoom "EBAY_US" itAuction "timeout"
    dbEmpty [] 0 [] [] rfl
  refine ⟨?_, ?_, h3.1, h3.2, ?_⟩
  · exact detail_fetch_degradation_amended.1 outcome404 "X1"
      ⟨404, ⟨some 5, some "USD", some "FUT"⟩⟩ rfl (by decide)
  · exact (detail_fetch_degradation_amended.2.1 ctx404 "EBAY_US" itAuction
      (by decide) (by decide) rfl).1
  · exact detail_fetch_degradation_amended.2.2.2 ctxWBoom entryW1 "timeout" rfl rfl

/-- Witness for C9: a two-row list mixing a parseable (aware) end time
with an absent one raises `TypeError`; a homogeneous all-parseable or
all-absent list sorts fine. -/
theorem sort_ending_soonest_type_error_witness :
    sortEndingSoonest parseW [listing610, listingNoEnd] = Except.error "TypeError"
    ∧ sortEndingSoonest parseW [listingNoEnd] = Except.ok [listingNoEnd]
    ∧ (∃ out, sortEndingSoonest parseW [listing610] = Except.ok out
        ∧ out.Perm [listing610]
        ∧ List.Pairwise (fun a b =>
            awareVal (end_key parseW a) ≤ awareVal (end_key parseW b)) out) := by
  refine ⟨?_, ?_, ?_⟩
  · exact sort_ending_soonest_type_error.1 parseW [listing610, listingNoEnd]
      ⟨listing610, List.mem_cons_self _ _, by decide⟩
      ⟨listingNoEnd, List.mem_cons_of_mem _ (List.mem_cons_self _ _), by decide⟩
  · refine sort_ending_soonest_type_error.2.2.1 parseW [listingNoEnd] ?_
    intro r hr
    rcases List.mem_singleton.mp hr with rfl
    decide
  · refine sort_ending_soonest_type_error.2.1 parseW [listing610] ?_
    intro r hr
    rcases List.mem_singleton.mp hr with rfl
    decide

/-- Witness for C10: a zero-valued live bid lands in the no-bid branch;
with an `ACTIVE` stored listing and no recorded bid the entry is left
completely unchanged and nothing is emitted. -/
theorem check_watchlist_no_bid_active_listing_untouched_witness :
    checkEntry ctxW10 entryW10 = (entryW10, true, [], 0) :=
  (check_watchlist_no_bid_active_listing_untouched ctxW10 entryW10 listingNoBid
    ⟨some 0, some "USD", some "FUT"⟩ rfl rfl rfl (Or.inr rfl) rfl rfl rfl).1

end BrassRadar
